import Mathlib

/-
Verification of the runtime core of the PyLox tree-walking interpreter
(src/src/interpreter.py).  The Python `Interpreter` class dispatches on
syntax-tree nodes, keeps a ChainMap of environments as `self.env`, and
prints via stdout.  We embed it as a state-passing evaluator:

* Python runtime values (None / bool / float / str, plus the
  `NotImplemented` sentinel that `a.__eq__(b)` can return) become the
  `Value` sum type; floats are idealised as rationals.
* the ChainMap chain becomes a heap of environment records with parent
  pointers plus a "current environment" cursor, mirroring Python object
  references so that `self.env = previous` is literally a cursor reset.
* stdout becomes an output list carried in the state.
* raised exceptions become `Except` results; the fuel parameter of the
  statement executor only models non-termination of `while`.
-/

/-- Runtime values flowing through the interpreter: Python `None` (Lox
nil), `bool`, `float` (modelled as `ℚ`), `str`, and the `NotImplemented`
sentinel object that Python's `__eq__` returns on unsupported operand
types (reachable through `Interpreter.is_equal`). -/
inductive Value where
  | nil
  | bool (b : Bool)
  | num (q : ℚ)
  | str (s : String)
  | notImpl
deriving DecidableEq

/-- Runtime failures.  `typeError` models `ErrorHandler.error(node, msg)`
(modelled from the spec: `error_handler.py` is not under `src/`; per the
spec's error-sink contract a runtime failure propagates out of the
evaluator and aborts the current run, so `error` raises).  `notImplError`
models the `NotImplementedError` raised by `visit_Unary` for an unknown
operator (a `RuntimeError` subclass in Python). -/
inductive Err where
  | typeError (msg : String)
  | notImplError (msg : String)
deriving DecidableEq

/-- Exception channel of the embedding: a propagating runtime error, or
exhaustion of the artificial fuel that bounds `while` unrolling. -/
inductive Exc where
  | rte (e : Err)
  | fuelOut
deriving DecidableEq

/-- One environment record: the ChainMap's first dict (`table`, an
insertion-ordered association list with unique keys) plus the reference
to the enclosing environment (`parent`, an index into the heap). -/
structure EnvObj where
  table : List (String × Value)
  parent : Option Nat
deriving DecidableEq

/-- Interpreter state: the heap of all allocated environment records
(`new_child` appends), the index of the current environment
(`self.env`), and the lines printed to stdout so far. -/
structure St where
  heap : List EnvObj
  cur : Nat
  out : List String
deriving DecidableEq

/-- The state after `Interpreter.__init__`: `self.env = ChainMap()` is a
single empty map with no parent; nothing printed. -/
def initSt : St := ⟨[⟨[], none⟩], 0, []⟩

/-- First binding of `name` in one dict (Python dict lookup). -/
def lookupTable : List (String × Value) → String → Option Value
  | [], _ => none
  | (k, v) :: rest, name => if k = name then some v else lookupTable rest name

/-- Python dict item assignment: overwrite in place or append. -/
def tableSet : List (String × Value) → String → Value → List (String × Value)
  | [], name, v => [(name, v)]
  | (k, w) :: rest, name, v =>
    if k = name then (k, v) :: rest else (k, w) :: tableSet rest name v

/-- `ChainMap.get`: search the current environment, then each ancestor
outward; `none` when the whole chain misses.  The fuel is bounded by the
heap size (parent indices always point to older records). -/
def lookupChain : Nat → List EnvObj → Nat → String → Option Value
  | 0, _, _, _ => none
  | fuel + 1, heap, i, name =>
    match heap[i]? with
    | none => none
    | some obj =>
      match lookupTable obj.table name with
      | some v => some v
      | none =>
        match obj.parent with
        | none => none
        | some p => lookupChain fuel heap p name

/-- `self.env.get(name)` at the current cursor. -/
def env_get (st : St) (name : String) : Option Value :=
  lookupChain st.heap.length st.heap st.cur name

/-- `self.env[name] = value`: a ChainMap item assignment always writes
the first (innermost) map, i.e. the current environment's own table. -/
def env_set (st : St) (name : String) (v : Value) : St :=
  match st.heap[st.cur]? with
  | some obj =>
    { st with heap := st.heap.set st.cur { obj with table := tableSet obj.table name v } }
  | none => st

/-- `Interpreter.is_truthy` (lines 144-151): `None` is falsy, a bool is
itself, everything else is truthy. -/
def is_truthy : Value → Bool
  | .nil => false
  | .bool b => b
  | _ => true

/-- Python `a.__eq__(b)` for the non-`None` values of this interpreter:
numbers and booleans compare numerically (`bool` is an `int` subclass,
so `True == 1.0`), strings compare by content, `NotImplemented` is a
singleton compared by identity, and every unsupported pairing (string
against number, anything against `None` on the right, ...) returns the
`NotImplemented` sentinel, which is a truthy non-boolean object. -/
def pyEq : Value → Value → Value
  | .num x, .num y => .bool (decide (x = y))
  | .num x, .bool b => .bool (decide (x = (if b then 1 else 0)))
  | .bool b, .num y => .bool (decide ((if b then (1 : ℚ) else 0) = y))
  | .bool x, .bool y => .bool (decide (x = y))
  | .str s, .str t => .bool (decide (s = t))
  | .notImpl, .notImpl => .bool true
  | _, _ => .notImpl

/-- `Interpreter.is_equal` (lines 153-158): `None` equals only `None`,
`None` on the left is unequal to everything else, and every other case
delegates to the left operand's `__eq__`. -/
def is_equal : Value → Value → Value
  | .nil, .nil => .bool true
  | .nil, _ => .bool false
  | a, b => pyEq a b

/-- Python `str(float)` restricted to the values this model produces:
an integral value renders as its integer digits followed by `.0`; a
non-integral value renders sign, integer part, and the fraction digits
produced by repeated multiplication by 10 (cut off well past double
precision, mirroring the shortest-repr of the dyadic values an actual
float can hold). -/
def fracLoop : Nat → ℚ → String
  | 0, _ => ""
  | fuel + 1, q =>
    if q = 0 then ""
    else
      let q10 := q * 10
      let d := q10.num / (q10.den : ℤ)
      toString d ++ fracLoop fuel (q10 - (d : ℚ))

/-- Digits of a positive non-integral rational, `str(float)` style. -/
def pyFloatStrPos (q : ℚ) : String :=
  let ip := q.num.toNat / q.den
  toString ip ++ "." ++ fracLoop 17 (q - (ip : ℚ))

/-- Model of the Python builtin `str` on a float value. -/
def pyFloatStr (q : ℚ) : String :=
  if q.den = 1 then toString q.num ++ ".0"
  else if q < 0 then "-" ++ pyFloatStrPos (-q)
  else pyFloatStrPos q

/-- Model of Python `text.endswith(suffix)`. -/
def pyEndsWith (s suffix : String) : Bool :=
  List.isSuffixOf suffix.data s.data

/-- Model of the Python slice `text[0:len(text) - 2]`. -/
def pyStripLast2 (s : String) : String :=
  String.mk (s.data.take (s.data.length - 2))

/-- `Interpreter.stringify` (lines 160-169): `None` renders as `nil`; a
float renders via `str`, with a trailing `.0` sliced off; everything
else falls through to Python `str`, so a bool renders capitalised as
`True`/`False` and a string verbatim. -/
def stringify : Value → String
  | .nil => "nil"
  | .num q =>
    let text := pyFloatStr q
    if pyEndsWith text ".0" then pyStripLast2 text else text
  | .bool b => if b then "True" else "False"
  | .str s => s
  | .notImpl => "NotImplemented"

/-- Expression nodes consumed by the evaluator (operators carried as
their lexemes, as in `node.op.lexeme`). -/
inductive Expr where
  | lit (v : Value)
  | grouping (e : Expr)
  | unary (op : String) (right : Expr)
  | binary (left : Expr) (op : String) (right : Expr)
  | logical (left : Expr) (op : String) (right : Expr)
  | var (name : String)
  | assign (name : String) (value : Expr)

/-- Statement nodes consumed by the evaluator. -/
inductive Stmt where
  | exprStmt (e : Expr)
  | printStmt (e : Expr)
  | varDecl (name : String) (initializer : Option Expr)
  | ifStmt (test : Expr) (consequence : Stmt) (alternative : Option Stmt)
  | whileStmt (test : Expr) (body : Stmt)
  | block (statements : List Stmt)

/-- The operator dispatch of `Interpreter.visit_Binary` (lines 75-111),
applied after both operands are evaluated.  `check_numeric_operands`
raises `operands must be numbers` unless both are floats.  The `/` arm
reproduces the source's `try/except ZeroDivisionError` handler: on a
zero divisor it prints a diagnostic to stdout and falls off the `case`,
returning `None`.  A `match` miss (unknown operator) likewise returns
`None`. -/
def evalBinOp (op : String) (l r : Value) (st : St) : St × Except Exc Value :=
  if op = "-" then
    match l, r with
    | .num x, .num y => (st, .ok (.num (x - y)))
    | _, _ => (st, .error (.rte (.typeError "operands must be numbers")))
  else if op = "/" then
    match l, r with
    | .num x, .num y =>
      if y = 0 then
        ({ st with out := st.out ++ ["ZeroDivisionError: float division by zero"] }, .ok .nil)
      else (st, .ok (.num (x / y)))
    | _, _ => (st, .error (.rte (.typeError "operands must be numbers")))
  else if op = "*" then
    match l, r with
    | .num x, .num y => (st, .ok (.num (x * y)))
    | _, _ => (st, .error (.rte (.typeError "operands must be numbers")))
  else if op = "+" then
    match l, r with
    | .str s, .str t => (st, .ok (.str (s ++ t)))
    | .num x, .num y => (st, .ok (.num (x + y)))
    | _, _ => (st, .error (.rte (.typeError "operands must be numbers")))
  else if op = ">" then
    match l, r with
    | .num x, .num y => (st, .ok (.bool (decide (x > y))))
    | _, _ => (st, .error (.rte (.typeError "operands must be numbers")))
  else if op = ">=" then
    match l, r with
    | .num x, .num y => (st, .ok (.bool (decide (x ≥ y))))
    | _, _ => (st, .error (.rte (.typeError "operands must be numbers")))
  else if op = "<" then
    match l, r with
    | .num x, .num y => (st, .ok (.bool (decide (x < y))))
    | _, _ => (st, .error (.rte (.typeError "operands must be numbers")))
  else if op = "<=" then
    match l, r with
    | .num x, .num y => (st, .ok (.bool (decide (x ≤ y))))
    | _, _ => (st, .error (.rte (.typeError "operands must be numbers")))
  else if op = "!=" then
    (st, .ok (.bool (! is_truthy (is_equal l r))))
  else if op = "==" then
    (st, .ok (is_equal l r))
  else (st, .ok .nil)

/-- Expression dispatch of `Interpreter.visit` on expression nodes:
`visit_Literal`, `visit_Grouping`, `visit_Unary`, `visit_Binary` (both
operands evaluated left to right), `visit_Logical` (lines 46-52, which
falls through to `None` on an unknown operator), `visit_Variable`
(line 69: `self.env.get(name)`, whose miss value `None` is Lox nil),
and `visit_Assign` (lines 136-139: evaluate, `self.env[name] = value`,
return the value). -/
def evalExpr : Expr → St → St × Except Exc Value
  | .lit v, st => (st, .ok v)
  | .grouping e, st => evalExpr e st
  | .unary op right, st =>
    match evalExpr right st with
    | (st1, .ok v) =>
      if op = "-" then
        match v with
        | .num q => (st1, .ok (.num (-q)))
        | _ => (st1, .error (.rte (.typeError "operand must be a number")))
      else if op = "!" then (st1, .ok (.bool (! is_truthy v)))
      else (st1, .error (.rte (.notImplError op)))
    | (st1, .error ex) => (st1, .error ex)
  | .binary l op r, st =>
    match evalExpr l st with
    | (st1, .ok lv) =>
      (match evalExpr r st1 with
       | (st2, .ok rv) => evalBinOp op lv rv st2
       | (st2, .error ex) => (st2, .error ex))
    | (st1, .error ex) => (st1, .error ex)
  | .logical l op r, st =>
    match evalExpr l st with
    | (st1, .ok left) =>
      if op = "or" then
        if is_truthy left then (st1, .ok left) else evalExpr r st1
      else if op = "and" then
        if is_truthy left then evalExpr r st1 else (st1, .ok left)
      else (st1, .ok .nil)
    | (st1, .error ex) => (st1, .error ex)
  | .var name, st => (st, .ok ((env_get st name).getD .nil))
  | .assign name e, st =>
    match evalExpr e st with
    | (st1, .ok v) => (env_set st1 name v, .ok v)
    | (st1, .error ex) => (st1, .error ex)

/-- Statement dispatch (`visit_ExprStmt`, `visit_Print`,
`visit_VarDeclaration`, `visit_IfStmt`, `visit_WhileStmt`,
`visit_Block`/`execute_Block`) together with the statement-list loop of
`execute_Block`, combined into one function so the recursion is
structural on the fuel.  The `.block` arm is `execute_Block` (lines
34-41): `previous = self.env`; `self.env = self.env.new_child()` (a
fresh record appended to the heap, parented to the current one); run
the statements; `finally: self.env = previous` — the cursor reset
happens on the normal and the exceptional path alike. -/
def execS : Nat → Sum Stmt (List Stmt) → St → St × Except Exc Unit
  | 0, _, st => (st, .error .fuelOut)
  | fuel + 1, x, st =>
    match x with
    | .inl (.exprStmt e) =>
      (match evalExpr e st with
       | (st1, .ok _) => (st1, .ok ())
       | (st1, .error ex) => (st1, .error ex))
    | .inl (.printStmt e) =>
      (match evalExpr e st with
       | (st1, .ok v) => ({ st1 with out := st1.out ++ [stringify v] }, .ok ())
       | (st1, .error ex) => (st1, .error ex))
    | .inl (.varDecl name initializer) =>
      (match initializer with
       | some e =>
         (match evalExpr e st with
          | (st1, .ok v) => (env_set st1 name v, .ok ())
          | (st1, .error ex) => (st1, .error ex))
       | none => (env_set st name .nil, .ok ()))
    | .inl (.ifStmt test consequence alternative) =>
      (match evalExpr test st with
       | (st1, .ok v) =>
         if is_truthy v then execS fuel (.inl consequence) st1
         else
           (match alternative with
            | some a => execS fuel (.inl a) st1
            | none => (st1, .ok ()))
       | (st1, .error ex) => (st1, .error ex))
    | .inl (.whileStmt test body) =>
      (match evalExpr test st with
       | (st1, .ok v) =>
         if is_truthy v then
           (match execS fuel (.inl body) st1 with
            | (st2, .ok _) => execS fuel (.inl (.whileStmt test body)) st2
            | (st2, .error ex) => (st2, .error ex))
         else (st1, .ok ())
       | (st1, .error ex) => (st1, .error ex))
    | .inl (.block statements) =>
      let p := execS fuel (.inr statements)
        { st with heap := st.heap ++ [⟨[], some st.cur⟩], cur := st.heap.length }
      ({ p.1 with cur := st.cur }, p.2)
    | .inr [] => (st, .ok ())
    | .inr (s :: rest) =>
      (match execS fuel (.inl s) st with
       | (st1, .ok _) => execS fuel (.inr rest) st1
       | (st1, .error ex) => (st1, .error ex))

/-- Execute one statement (with fuel for `while`). -/
def execStmt (fuel : Nat) (s : Stmt) (st : St) : St × Except Exc Unit :=
  execS fuel (.inl s) st

/-- Execute a statement sequence in order, stopping at the first
propagating failure. -/
def runStmts (fuel : Nat) (l : List Stmt) (st : St) : St × Except Exc Unit :=
  execS fuel (.inr l) st

/-- What `Interpreter.interpret` hands to the outside: normal
completion, or exactly one runtime error forwarded to
`ErrorHandler.runtime_error` (modelled from the spec: the error sink
records the single failure that aborted the run), or fuel exhaustion
(an artefact of the embedding, not a Python behaviour). -/
inductive Outcome where
  | done
  | reported (e : Err)
  | fuelOut
deriving DecidableEq

/-- `Interpreter.interpret` (lines 15-20): run the top-level statements
in order inside one `try`; the first `RuntimeError` aborts the loop and
is reported once to the error sink. -/
def interpret (fuel : Nat) (stmts : List Stmt) (st : St) : St × Outcome :=
  match runStmts fuel stmts st with
  | (st1, .ok _) => (st1, .done)
  | (st1, .error (.rte e)) => (st1, .reported e)
  | (st1, .error .fuelOut) => (st1, .fuelOut)

/-- C1: the claim says that assigning to a name bound nowhere in the
chain fails with `UndefinedVariable` and creates no binding.  The code
(`visit_Assign`, lines 136-139) instead performs a ChainMap item
assignment, which silently defines the name in the innermost (here:
global) environment and returns the value: evaluating `x = 1` on a
fresh interpreter creates the binding `x ↦ 1` and succeeds. -/
theorem visit_Assign_creates_binding :
    evalExpr (.assign "x" (.lit (.num 1))) initSt
      = (⟨[⟨[("x", .num 1)], none⟩], 0, []⟩, .ok (.num 1))
    ∧ env_get (evalExpr (.assign "x" (.lit (.num 1))) initSt).1 "x" = some (.num 1) :=
  ⟨rfl, rfl⟩

/-- C2: the claim says an assignment whose target is bound only in an
ancestor environment overwrites the ancestor binding.  The code's
ChainMap item assignment always writes the innermost map, so
`var x = 1; { x = 2; } print x;` creates a fresh shadow `x ↦ 2` inside
the block environment, leaves the outer binding at `1`, and prints `1`
after the block exits (the claim requires `2`). -/
theorem block_assign_shadows_instead_of_mutating_outer :
    interpret 10
      [.varDecl "x" (some (.lit (.num 1))),
       .block [.exprStmt (.assign "x" (.lit (.num 2)))],
       .printStmt (.var "x")] initSt
      = (⟨[⟨[("x", .num 1)], none⟩, ⟨[("x", .num 2)], some 0⟩], 0, ["1"]⟩, .done) :=
  rfl

/-- C3: the claim says reading an undefined variable fails with
`UndefinedVariable`.  The code (`visit_Variable`, line 69) calls
`ChainMap.get`, whose miss value is `None` — i.e. Lox `nil` — so the
read succeeds: `print y;` on a fresh interpreter prints `nil` and the
run completes normally. -/
theorem visit_Variable_undefined_returns_nil :
    evalExpr (.var "y") initSt = (initSt, .ok .nil)
    ∧ interpret 5 [.printStmt (.var "y")] initSt = (⟨[⟨[], none⟩], 0, ["nil"]⟩, .done) :=
  ⟨rfl, rfl⟩

/-- C4: the claim says a zero divisor raises exactly one
`DivisionByZero` failure with no printed output and no continuation.
The code (`visit_Binary`, lines 84-89) catches Python's
`ZeroDivisionError`, prints a diagnostic to stdout, and falls through,
so the expression produces `None`: evaluating `1 / 0` prints the
diagnostic and yields `nil`, and the enclosing `print` statement keeps
running and additionally prints `nil` with the run ending normally. -/
theorem division_by_zero_prints_and_continues :
    evalExpr (.binary (.lit (.num 1)) "/" (.lit (.num 0))) initSt
      = (⟨[⟨[], none⟩], 0, ["ZeroDivisionError: float division by zero"]⟩, .ok .nil)
    ∧ interpret 5 [.printStmt (.binary (.lit (.num 1)) "/" (.lit (.num 0)))] initSt
      = (⟨[⟨[], none⟩], 0, ["ZeroDivisionError: float division by zero", "nil"]⟩, .done) :=
  ⟨rfl, rfl⟩

/-- C5 counterexample: the claim says `==` returns Boolean false
whenever the operands are of different variants, naming Boolean
compared with Number explicitly.  In the code `is_equal` delegates to
Python `__eq__`, and `bool` is an `int` subclass, so `true == 1`
evaluates to Boolean true. -/
theorem is_equal_bool_number_cex :
    is_equal (.bool true) (.num 1) = .bool true
    ∧ evalExpr (.binary (.lit (.bool true)) "==" (.lit (.num 1))) initSt
        = (initSt, .ok (.bool true))
    ∧ Value.bool true ≠ Value.bool false :=
  ⟨rfl, rfl, by decide⟩

/-- C5 amended: equality as `is_equal` (lines 153-158) implements it:
`Nil == Nil` is true and `Nil` on the left is unequal to any non-`Nil`;
otherwise the left operand's `__eq__` decides: same-variant operands
compare by value, a Boolean compared with a Number compares numerically
(`true` as 1, `false` as 0), and an unsupported pairing (String with
Number, or `Nil` on the right) yields the truthy `NotImplemented`
sentinel rather than Boolean false.  `Binary` with `==` returns
`is_equal` verbatim and `!=` returns the Boolean negation of its
truthiness. -/
theorem is_equal_code_rule :
    (is_equal .nil .nil = .bool true)
    ∧ (∀ b, is_equal .nil (.bool b) = .bool false)
    ∧ (∀ q, is_equal .nil (.num q) = .bool false)
    ∧ (∀ s, is_equal .nil (.str s) = .bool false)
    ∧ (∀ x y, is_equal (.num x) (.num y) = .bool (decide (x = y)))
    ∧ (∀ x y, is_equal (.bool x) (.bool y) = .bool (decide (x = y)))
    ∧ (∀ s t, is_equal (.str s) (.str t) = .bool (decide (s = t)))
    ∧ (∀ b y, is_equal (.bool b) (.num y) = .bool (decide ((if b then (1 : ℚ) else 0) = y)))
    ∧ (∀ x b, is_equal (.num x) (.bool b) = .bool (decide (x = (if b then 1 else 0))))
    ∧ (∀ s y, is_equal (.str s) (.num y) = .notImpl)
    ∧ (∀ x t, is_equal (.num x) (.str t) = .notImpl)
    ∧ (∀ x, is_equal (.num x) .nil = .notImpl)
    ∧ (∀ a b st, evalExpr (.binary (.lit a) "==" (.lit b)) st = (st, .ok (is_equal a b)))
    ∧ (∀ a b st, evalExpr (.binary (.lit a) "!=" (.lit b)) st
        = (st, .ok (.bool (! is_truthy (is_equal a b))))) :=
  ⟨rfl, fun _ => rfl, fun _ => rfl, fun _ => rfl, fun _ _ => rfl, fun _ _ => rfl,
   fun _ _ => rfl, fun _ _ => rfl, fun _ _ => rfl, fun _ _ => rfl, fun _ _ => rfl,
   fun _ => rfl, fun _ _ _ => rfl, fun _ _ _ => rfl⟩

/-- Appending `.0` makes `endswith('.0')` true. -/
theorem pyEndsWith_dotzero (t : String) : pyEndsWith (t ++ ".0") ".0" = true := by
  simp [pyEndsWith, List.isSuffixOf, String.data_append, List.reverse_append, List.isPrefixOf]

/-- Slicing the last two characters undoes appending `.0`. -/
theorem pyStripLast2_dotzero (t : String) : pyStripLast2 (t ++ ".0") = t := by
  cases t with
  | mk d =>
    show String.mk ((d ++ ['.', '0']).take ((d ++ ['.', '0']).length - 2)) = String.mk d
    have h : (d ++ ['.', '0']).length - 2 = d.length := by simp
    rw [h, List.take_left]

/-- Python `str` on an integral float is the integer digits plus `.0`. -/
theorem pyFloatStr_intCast (n : ℤ) : pyFloatStr (n : ℚ) = toString n ++ ".0" := by
  unfold pyFloatStr
  rw [if_pos (Rat.den_intCast n), Rat.num_intCast]

/-- C9 counterexample: the claim says a Boolean stringifies to its
lowercase textual form.  `stringify` (lines 160-169) special-cases only
`None` and floats, so a Boolean falls through to Python `str`, which
capitalises: `True`/`False`. -/
theorem stringify_bool_cex :
    stringify (.bool true) = "True" ∧ stringify (.bool true) ≠ "true"
    ∧ stringify (.bool false) = "False" ∧ stringify (.bool false) ≠ "false" :=
  ⟨rfl, by decide, rfl, by decide⟩

/-- C9 amended: `stringify` renders `Nil` as the text `nil`; a Boolean
via Python `str`, i.e. capitalised `True`/`False`; a Number via
`str(float)` with a trailing `.0` sliced off, so every integral value
shows as its integer digits (`3.0` as `3`); and a String verbatim. -/
theorem stringify_rule :
    stringify .nil = "nil"
    ∧ (∀ b, stringify (.bool b) = if b then "True" else "False")
    ∧ (∀ s, stringify (.str s) = s)
    ∧ (∀ n : ℤ, stringify (.num (n : ℚ)) = toString n)
    ∧ stringify (.num 3) = "3" := by
  refine ⟨rfl, fun b => rfl, fun s => rfl, fun n => ?_, ?_⟩
  · show (let text := pyFloatStr (n : ℚ)
      if pyEndsWith text ".0" then pyStripLast2 text else text) = toString n
    rw [pyFloatStr_intCast]
    rw [if_pos (pyEndsWith_dotzero (toString n))]
    exact pyStripLast2_dotzero (toString n)
  · rfl

/-- C6: `visit_Logical` (lines 46-52) evaluates the left operand once;
for `or` a truthy left value is returned with the interpreter state
exactly as the left evaluation left it — the right operand is never
evaluated, so none of its effects happen; for `and` the same with a
falsy left; otherwise the result is exactly the evaluation of the right
operand from that intermediate state. -/
theorem visit_Logical_short_circuit (l r : Expr) (st st1 : St) (v : Value)
    (h : evalExpr l st = (st1, Except.ok v)) :
    (is_truthy v = true → evalExpr (.logical l "or" r) st = (st1, Except.ok v))
    ∧ (is_truthy v = false → evalExpr (.logical l "and" r) st = (st1, Except.ok v))
    ∧ (is_truthy v = false → evalExpr (.logical l "or" r) st = evalExpr r st1)
    ∧ (is_truthy v = true → evalExpr (.logical l "and" r) st = evalExpr r st1) := by
  refine ⟨fun ht => ?_, fun ht => ?_, fun ht => ?_, fun ht => ?_⟩ <;>
    simp [evalExpr, h, ht]

/-- C6 witness: with a truthy (resp. falsy) literal on the left, `or`
(resp. `and`) over an assignment returns the left value with the state
untouched: the assignment to `y` never happens. -/
theorem visit_Logical_short_circuit_wit :
    evalExpr (.logical (.lit (.bool true)) "or" (.assign "y" (.lit (.num 1)))) initSt
      = (initSt, Except.ok (.bool true))
    ∧ evalExpr (.logical (.lit (.bool false)) "and" (.assign "y" (.lit (.num 1)))) initSt
      = (initSt, Except.ok (.bool false)) :=
  ⟨(visit_Logical_short_circuit (.lit (.bool true)) (.assign "y" (.lit (.num 1))) initSt initSt
      (.bool true) rfl).1 rfl,
   (visit_Logical_short_circuit (.lit (.bool false)) (.assign "y" (.lit (.num 1))) initSt initSt
      (.bool false) rfl).2.1 rfl⟩

/-- C7: `visit_Block`/`execute_Block` (lines 34-41, 141-142): executing
a block appends a fresh child environment record (empty table, parented
to the current environment), runs the contained statements in order
against it, and — whatever the outcome, normal or a propagating
failure — hands back a state whose current-environment cursor is reset
to the previous environment, as the `try/finally` guarantees. -/
theorem execute_Block_scoping (fuel : Nat) (stmts : List Stmt) (st : St) :
    execStmt (fuel + 1) (.block stmts) st
      = (let p := runStmts fuel stmts
           { st with heap := st.heap ++ [⟨[], some st.cur⟩], cur := st.heap.length }
         ({ p.1 with cur := st.cur }, p.2))
    ∧ ((execStmt (fuel + 1) (.block stmts) st).1).cur = st.cur :=
  ⟨rfl, rfl⟩

/-- A ChainMap item assignment rewrites one table in place: it moves
neither the cursor nor allocates environments. -/
theorem env_set_frame (st : St) (name : String) (v : Value) :
    (env_set st name v).cur = st.cur ∧ (env_set st name v).heap.length = st.heap.length := by
  unfold env_set
  cases h : st.heap[st.cur]? with
  | none => exact ⟨rfl, rfl⟩
  | some obj => exact ⟨rfl, by simp⟩

/-- Binary operator application touches at most the output (the `/`
diagnostic): cursor and heap shape are preserved. -/
theorem evalBinOp_frame (op : String) (l r : Value) (st : St) :
    ((evalBinOp op l r st).1).cur = st.cur
    ∧ ((evalBinOp op l r st).1).heap.length = st.heap.length := by
  unfold evalBinOp
  repeat' split
  all_goals exact ⟨rfl, rfl⟩

/-- Expression evaluation never moves the current-environment cursor
and never allocates an environment (it can only rewrite tables). -/
theorem evalExpr_frame : ∀ (e : Expr) (st : St),
    ((evalExpr e st).1).cur = st.cur
    ∧ ((evalExpr e st).1).heap.length = st.heap.length := by
  intro e
  induction e with
  | lit v => exact fun st => ⟨rfl, rfl⟩
  | grouping e ih => exact fun st => by simpa [evalExpr] using ih st
  | unary op right ih =>
    intro st
    have h := ih st
    cases he : evalExpr right st with
    | mk st1 res =>
      rw [he] at h
      cases res with
      | error ex => simpa [evalExpr, he] using h
      | ok v =>
        simp only [evalExpr, he]
        repeat' split
        all_goals exact h
  | binary l op r ihl ihr =>
    intro st
    have hl := ihl st
    cases hel : evalExpr l st with
    | mk st1 res1 =>
      rw [hel] at hl
      cases res1 with
      | error ex => simpa [evalExpr, hel] using hl
      | ok lv =>
        have hr := ihr st1
        cases her : evalExpr r st1 with
        | mk st2 res2 =>
          rw [her] at hr
          have hlr : st2.cur = st.cur ∧ st2.heap.length = st.heap.length :=
            ⟨hr.1.trans hl.1, hr.2.trans hl.2⟩
          cases res2 with
          | error ex => simpa [evalExpr, hel, her] using hlr
          | ok rv =>
            have hb := evalBinOp_frame op lv rv st2
            simp only [evalExpr, hel, her]
            exact ⟨hb.1.trans hlr.1, hb.2.trans hlr.2⟩
  | logical l op r ihl ihr =>
    intro st
    have hl := ihl st
    cases hel : evalExpr l st with
    | mk st1 res1 =>
      rw [hel] at hl
      cases res1 with
      | error ex => simpa [evalExpr, hel] using hl
      | ok lv =>
        simp only [evalExpr, hel]
        repeat' split
        all_goals first
          | exact hl
          | exact ⟨(ihr st1).1.trans hl.1, (ihr st1).2.trans hl.2⟩
  | var name => exact fun st => ⟨rfl, rfl⟩
  | assign name e ih =>
    intro st
    have h := ih st
    cases he : evalExpr e st with
    | mk st1 res =>
      rw [he] at h
      cases res with
      | error ex => simpa [evalExpr, he] using h
      | ok v =>
        have hs := env_set_frame st1 name v
        simp only [evalExpr, he]
        exact ⟨hs.1.trans h.1, hs.2.trans h.2⟩

/-- Statement execution always returns with the cursor it started with:
only `.block` moves it, and `execute_Block` restores it on every path. -/
theorem execS_cur : ∀ (fuel : Nat) (x : Sum Stmt (List Stmt)) (st : St),
    ((execS fuel x st).1).cur = st.cur := by
  intro fuel
  induction fuel with
  | zero => intro x st; rfl
  | succ fuel ih =>
    rintro (s | l) st
    · cases s with
      | exprStmt e =>
        have h := (evalExpr_frame e st).1
        cases he : evalExpr e st with
        | mk st1 res =>
          rw [he] at h
          cases res with
          | error ex => simpa [execS, he] using h
          | ok v => simpa [execS, he] using h
      | printStmt e =>
        have h := (evalExpr_frame e st).1
        cases he : evalExpr e st with
        | mk st1 res =>
          rw [he] at h
          cases res with
          | error ex => simpa [execS, he] using h
          | ok v => simpa [execS, he] using h
      | varDecl name initializer =>
        cases initializer with
        | none => simpa [execS] using (env_set_frame st name .nil).1
        | some e =>
          have h := (evalExpr_frame e st).1
          cases he : evalExpr e st with
          | mk st1 res =>
            rw [he] at h
            cases res with
            | error ex => simpa [execS, he] using h
            | ok v =>
              have hs := (env_set_frame st1 name v).1
              simpa [execS, he] using hs.trans h
      | ifStmt test consequence alternative =>
        have h := (evalExpr_frame test st).1
        cases he : evalExpr test st with
        | mk st1 res =>
          rw [he] at h
          cases res with
          | error ex => simpa [execS, he] using h
          | ok v =>
            simp only [execS, he]
            split
            · exact (ih (.inl consequence) st1).trans h
            · cases alternative with
              | some a => exact (ih (.inl a) st1).trans h
              | none => exact h
      | whileStmt test body =>
        have h := (evalExpr_frame test st).1
        cases he : evalExpr test st with
        | mk st1 res =>
          rw [he] at h
          cases res with
          | error ex => simpa [execS, he] using h
          | ok v =>
            simp only [execS, he]
            split
            · cases hb : execS fuel (.inl body) st1 with
              | mk st2 res2 =>
                have h2 := ih (.inl body) st1
                rw [hb] at h2
                cases res2 with
                | error ex => simpa using h2.trans h
                | ok u => exact (ih (.inl (.whileStmt test body)) st2).trans (h2.trans h)
            · exact h
      | block statements => simp [execS]
    · cases l with
      | nil => rfl
      | cons s rest =>
        have h1 := ih (.inl s) st
        cases hs : execS fuel (.inl s) st with
        | mk st1 res =>
          rw [hs] at h1
          cases res with
          | error ex => simpa [execS, hs] using h1
          | ok u => simpa [execS, hs] using (ih (.inr rest) st1).trans h1

/-- C10: evaluating any expression node leaves the current-environment
cursor where it was and allocates no environment (bindings inside
existing environments may change, but not which environment is
current); and every statement — `Block` included, which swaps the
cursor only between pushing its child and its guaranteed restore —
returns with the cursor unchanged. -/
theorem expression_frame_effect :
    (∀ e st, ((evalExpr e st).1).cur = st.cur
      ∧ ((evalExpr e st).1).heap.length = st.heap.length)
    ∧ (∀ fuel s st, ((execStmt fuel s st).1).cur = st.cur) :=
  ⟨evalExpr_frame, fun fuel s st => execS_cur fuel (.inl s) st⟩

/-- Running a statement sequence that succeeds on a prefix continues
into the suffix from the prefix's final state (each list step consumes
one unit of fuel). -/
theorem runStmts_append : ∀ (l1 : List Stmt) (fuel : Nat) (l2 : List Stmt) (st st1 : St),
    runStmts fuel l1 st = (st1, .ok ()) →
    runStmts fuel (l1 ++ l2) st = runStmts (fuel - l1.length) l2 st1 := by
  intro l1
  induction l1 with
  | nil =>
    intro fuel l2 st st1 h
    cases fuel with
    | zero => exact absurd h (by simp [runStmts, execS])
    | succ f =>
      have hst : st = st1 := by simpa [runStmts, execS] using h
      subst hst
      simp
  | cons s rest ih =>
    intro fuel l2 st st1 h
    cases fuel with
    | zero => exact absurd h (by simp [runStmts, execS])
    | succ f =>
      cases hs : execS f (.inl s) st with
      | mk st2 res =>
        cases res with
        | error ex =>
          exfalso
          have h' := h
          simp only [runStmts, execS, hs] at h'
          exact absurd h' (by simp)
        | ok u =>
          have h' : runStmts f rest st2 = (st1, .ok ()) := by
            have hh := h
            simp only [runStmts, execS, hs] at hh
            exact hh
          have hlen : (f + 1) - (s :: rest).length = f - rest.length := by
            simp [Nat.succ_sub_succ]
          rw [hlen]
          calc runStmts (f + 1) ((s :: rest) ++ l2) st
              = runStmts f (rest ++ l2) st2 := by
                simp only [List.cons_append, runStmts, execS, hs]
            _ = runStmts (f - rest.length) l2 st1 := ih f l2 st2 st1 h'

/-- C8: `Interpreter.interpret` (lines 15-20) runs the top-level
statements inside a single `try`: once the statement at position `i`
raises a runtime failure, the statements after it never execute (the
result does not depend on them), and the failure is handed to the error
sink exactly once, as the single reported error of the run. -/
theorem interpret_stops_and_reports_once
    (fuel b : Nat) (l1 l2 : List Stmt) (s : Stmt) (st0 st1 st2 : St) (e : Err)
    (h1 : runStmts fuel l1 st0 = (st1, .ok ()))
    (hb : fuel - l1.length = b + 1)
    (h2 : execStmt b s st1 = (st2, .error (.rte e))) :
    interpret fuel (l1 ++ s :: l2) st0 = (st2, .reported e) := by
  have hstep : runStmts (b + 1) (s :: l2) st1 = (st2, .error (.rte e)) := by
    have h2' : execS b (.inl s) st1 = (st2, .error (.rte e)) := h2
    show (match execS b (.inl s) st1 with
          | (st', .ok _) => execS b (.inr l2) st'
          | (st', .error ex) => (st', .error ex)) = (st2, .error (.rte e))
    rw [h2']
  unfold interpret
  rw [runStmts_append l1 fuel (s :: l2) st0 st1 h1, hb, hstep]

/-- C8 witness: with `1 + "x"` failing as the first statement, the
following `print` never runs (nothing is printed) and the run reports
the type error once. -/
theorem interpret_stops_and_reports_once_wit :
    runStmts 4 ([] : List Stmt) initSt = (initSt, .ok ())
    ∧ execStmt 3 (.exprStmt (.binary (.lit (.num 1)) "+" (.lit (.str "x")))) initSt
      = (initSt, .error (.rte (.typeError "operands must be numbers")))
    ∧ interpret 4
        [.exprStmt (.binary (.lit (.num 1)) "+" (.lit (.str "x"))),
         .printStmt (.lit (.num 7))] initSt
      = (initSt, .reported (.typeError "operands must be numbers")) :=
  ⟨rfl, rfl,
   interpret_stops_and_reports_once 4 3 [] [.printStmt (.lit (.num 7))]
     (.exprStmt (.binary (.lit (.num 1)) "+" (.lit (.str "x"))))
     initSt initSt initSt (.typeError "operands must be numbers") rfl rfl rfl⟩
